import Mathlib

/-!
# Verification of the CO3D challenge evaluation utilities

Shallow embedding of `co3d/challenge/utils.py`.  A directory is modelled as the
list of its entry names (strings without a path separator); Python dictionaries
are modelled as association lists built with the Python insertion semantics
(insertion order kept, a later value for an existing key overwrites in place);
Python exceptions are modelled with an `Except` error monad.  Metric values are
modelled as exact rationals.  The functions `eval_one`, `load_rgbda_frame` and
the constant `EVAL_METRIC_NAMES` live in `co3d/challenge/metric_utils.py` and
`co3d/challenge/io.py`, which are not part of the sources; following the spec
("it computes averaged similarity metrics"), `evaluate_file_folders` is
parametrised over the list of metric names and over the per-example evaluation
function.
-/

namespace CO3D

/-- Python exceptions raised by the evaluation utilities. -/
inductive PyError where
  | valueError (msg : String)
  | zeroDivisionError
  deriving DecidableEq

deriving instance DecidableEq for Except

/-- A single-quote character as a string (used by Python `str` of a list of strings). -/
def sq : String := "\x27"

/-- Python `str` applied to one string inside a list: wraps it in single quotes
(the names at hand contain no quotes or backslashes, so no escaping arises). -/
def pyRepr (s : String) : String := sq ++ s ++ sq

/-- Python `str` applied to a list of strings: `["a", "b"]` prints as a
bracketed, comma separated list of quoted items. -/
def pyStrList (l : List String) : String :=
  "[" ++ String.intercalate ", " (l.map pyRepr) ++ "]"

/-- Python `sep.join(l)`. -/
def strJoin (sep : String) : List String → String
  | [] => ""
  | [x] => x
  | x :: y :: xs => x ++ sep ++ strJoin sep (y :: xs)

/-- Python `s.endswith(t)`, via the character lists. -/
def strEndsWith (s t : String) : Bool := List.isSuffixOf t.data s.data

/-- Python `s.startswith(t)`, via the character lists. -/
def strStartsWith (s t : String) : Bool := List.isPrefixOf t.data s.data

/-- Python slicing `s[:-n]` (for `n > 0`): drop the last `n` characters. -/
def strDropRight (s : String) (n : Nat) : String := ⟨s.data.take (s.data.length - n)⟩

/-- Python `os.path.split(p)[-1]`: the part of `p` after its last slash. -/
def basename (p : String) : String :=
  ⟨(p.data.reverse.takeWhile (fun c => c ≠ '/')).reverse⟩

/-- One insertion into a Python dictionary represented as an association list:
an existing key keeps its position and gets the new value, a new key goes to
the back. -/
def dictInsert (l : List (String × String)) (kv : String × String) :
    List (String × String) :=
  if l.any (fun p => p.1 = kv.1) then
    l.map (fun p => if p.1 = kv.1 then (p.1, kv.2) else p)
  else l ++ [kv]

/-- A Python dict comprehension over a list of key-value pairs. -/
def pyDict (l : List (String × String)) : List (String × String) :=
  l.foldl dictInsert []

/-- The keys of a dictionary, in insertion order (Python `list(d)`). -/
def dkeys (l : List (String × String)) : List String := l.map Prod.fst

/-- Key membership, Python `k in d`. -/
def dmem (k : String) (l : List (String × String)) : Prop := k ∈ dkeys l

instance (k : String) (l : List (String × String)) : Decidable (dmem k l) := by
  unfold dmem; infer_instance

/-- Dictionary access `d[k]` (the first value stored at `k`; `pyDict` keeps
keys unique, so this is the Python value). -/
def dget (l : List (String × String)) (k : String) : Option String := List.lookup k l

/-- Lexicographic comparison of character lists by code point (the order
Python uses to compare strings). -/
def lexLt : List Char → List Char → Bool
  | [], [] => false
  | [], _ :: _ => true
  | _ :: _, [] => false
  | a :: as, b :: bs =>
    if a.toNat < b.toNat then true
    else if b.toNat < a.toNat then false
    else lexLt as bs

/-- String comparison by code points, as Python compares strings. -/
def strLt (a b : String) : Bool := lexLt a.data b.data

/-- Insertion of a string into a lexicographically sorted list. -/
def insortStr (x : String) : List String → List String
  | [] => [x]
  | y :: ys => if strLt x y || x == y then x :: y :: ys else y :: insortStr x ys

/-- Python `sorted` on a list of strings (lexicographic on code points). -/
def strSort (l : List String) : List String := l.foldr insortStr []

/-- Test whether a file name is matched by the glob pattern `*<sfx>`: the
glob star never matches a leading dot, and the rest must end in `sfx`. -/
def globMatch (f sfx : String) : Bool :=
  !(strStartsWith f ".") && strEndsWith f sfx

/-- Python `sorted(glob.glob(os.path.join(dir, "*" + sfx)))` over a directory whose
entries are `files`: the matching entries, prefixed with the directory path,
sorted. -/
def globFiles (files : List String) (dir sfx : String) : List String :=
  strSort ((files.filter (fun f => globMatch f sfx)).map (fun f => dir ++ "/" ++ f))

/-- The tuple `("image", "mask", "depth")` iterated over in
`get_result_directory_file_names`. -/
def resultTypes : List String := ["image", "mask", "depth"]

/-- The per-type file name suffix built by the source from the type name. -/
def pngSuffix (t : String) : String := "_" ++ t ++ ".png"

/-- The `matching_files` list for one result type: the glob matches, with
files ending in `_depth_mask.png` removed from the `mask` matching when
`has_depth_masks` is set. -/
def matchingFiles (files : List String) (dir : String) (hdm : Bool)
    (t : String) : List String :=
  let matching := globFiles files dir (pngSuffix t)
  if hdm && t = "mask" then
    matching.filter (fun f => !(strEndsWith f "_depth_mask.png"))
  else matching

/-- The dictionary `result_type_files[result_type]`, mapping each matched
example name (the base name of the file with the type suffix sliced off) to
the full path of the file. -/
def resultTypeFiles (files : List String) (dir : String) (hdm : Bool)
    (t : String) : List (String × String) :=
  pyDict ((matchingFiles files dir hdm t).map
    (fun f => (strDropRight (basename f) (pngSuffix t).length, f)))

/-- The list `example_names`: the sorted set of names occurring for any result type. -/
def exampleNames (files : List String) (dir : String) (hdm : Bool) : List String :=
  strSort ((resultTypes.flatMap (fun t => dkeys (resultTypeFiles files dir hdm t))).dedup)

/-- The entry `missing_examples[example_name]`: the result types the example lacks. -/
def missingTypes (files : List String) (dir : String) (hdm : Bool)
    (n : String) : List String :=
  resultTypes.filter (fun t => ¬ dmem n (resultTypeFiles files dir hdm t))

/-- The `missing_examples` dictionary: each incomplete example name (in sorted
order) with the list of result types it is missing. -/
def missingExamples (files : List String) (dir : String) (hdm : Bool) :
    List (String × List String) :=
  (exampleNames files dir hdm).filterMap
    (fun n =>
      let m := missingTypes files dir hdm n
      if m = [] then none else some (n, m))

/-- The function `get_result_directory_file_names(result_dir, has_depth_masks)`, with the
directory contents passed in as the entry list `files`.  Returns the
dictionary mapping each example name to its per-example root path, or raises
a `ValueError` listing the incomplete examples. -/
def get_result_directory_file_names (files : List String) (result_dir : String)
    (has_depth_masks : Bool) : Except PyError (List (String × String)) :=
  let missing := missingExamples files result_dir has_depth_masks
  if missing.length > 0 then
    .error (.valueError ("Some evaluation examples are incomplete:\n" ++
      strJoin "\n"
        (missing.map (fun kv => "   " ++ kv.1 ++ " missing " ++ pyStrList kv.2))))
  else
    .ok (pyDict ((exampleNames files result_dir has_depth_masks).map
      (fun n =>
        (n, strDropRight
          ((dget (resultTypeFiles files result_dir has_depth_masks "image") n).getD "")
          ("_image.png").length))))

/-- The function `check_user_submission_file_paths(ground_truth_files, user_submission_files)`:
raises when a ground-truth example is absent from the submission, then when
the submission carries an unexpected example; otherwise returns. -/
def check_user_submission_file_paths
    (ground_truth_files user_submission_files : List (String × String)) :
    Except PyError Unit :=
  let missing_gt_examples :=
    (dkeys ground_truth_files).filter
      (fun n => ¬ dmem n user_submission_files)
  if missing_gt_examples.length > 0 then
    .error (.valueError
      ("There are missing evaluation examples: " ++ pyStrList missing_gt_examples))
  else
    let additional_user_examples :=
      (dkeys user_submission_files).filter
        (fun n => ¬ dmem n ground_truth_files)
    if additional_user_examples.length > 0 then
      .error (.valueError
        ("Unexpected submitted evaluation examples " ++ pyStrList additional_user_examples))
    else .ok ()

/-- The function `evaluate_file_folders(pred_folder, gt_folder)`.  The two directory
contents are passed as entry lists; `metricNames` stands for
`EVAL_METRIC_NAMES` and `evalOne gt pred` for
`eval_one(load_rgbda_frame(gt), load_rgbda_frame(pred))`, a per-example
dictionary of rational metric values, both modelled from the spec because
`metric_utils.py` and `io.py` are not in the sources.  Returns the averaged
metrics together with the per-example results; the average divides by the
number of examples, so an empty example set raises `ZeroDivisionError` as
soon as one metric is averaged. -/
def evaluate_file_folders (metricNames : List String)
    (evalOne : String → String → List (String × ℚ))
    (predFiles gtFiles : List String) (pred_folder gt_folder : String) :
    Except PyError (List (String × ℚ) × List (List (String × ℚ))) := do
  let user_submission_files ← get_result_directory_file_names predFiles pred_folder false
  let ground_truth_files ← get_result_directory_file_names gtFiles gt_folder true
  let _ ← check_user_submission_file_paths ground_truth_files user_submission_files
  let per_example_results :=
    (dkeys ground_truth_files).map
      (fun gt_example =>
        evalOne ((dget ground_truth_files gt_example).getD "")
          ((dget user_submission_files gt_example).getD ""))
  if metricNames.length > 0 ∧ per_example_results.length = 0 then
    .error .zeroDivisionError
  else
    .ok
      (metricNames.map
        (fun metric =>
          (metric,
            ((per_example_results.map
              (fun r => ((List.lookup metric r).getD 0))).sum) /
              (per_example_results.length : ℚ))),
      per_example_results)

/-- The CO3D task enumeration from `co3d/challenge/data_types.py` (not in the
sources; the two constructors are named in `utils.py`). -/
inductive CO3DTask where
  | MANY_VIEW
  | FEW_VIEW
  deriving DecidableEq

/-- The function `get_co3d_task_from_subset_name(subset_name)`. -/
def get_co3d_task_from_subset_name (subset_name : String) :
    Except PyError CO3DTask :=
  if strStartsWith subset_name "manyview" then
    .ok .MANY_VIEW
  else if strStartsWith subset_name "fewview" then
    .ok .FEW_VIEW
  else
    .error (.valueError ("Invalid subset name " ++ subset_name ++ "!"))

/-- Substring test, Python `sub in s`. -/
def strContainsSub (s sub : String) : Bool := decide (sub.data <:+: s.data)

/-! ## String lemmas -/

theorem str_ext {a b : String} (h : a.data = b.data) : a = b := by
  cases a; cases b; exact congrArg String.mk h

theorem strEndsWith_iff {s t : String} : strEndsWith s t = true ↔ t.data <:+ s.data := by
  unfold strEndsWith List.isSuffixOf
  rw [ List.isPrefixOf_iff_prefix]
  exact List.reverse_prefix.trans Iff.rfl

theorem strStartsWith_iff {s t : String} :
    strStartsWith s t = true ↔ t.data <+: s.data := by
  unfold strStartsWith
  exact List.isPrefixOf_iff_prefix

theorem strContainsSub_iff {s t : String} :
    strContainsSub s t = true ↔ t.data <:+: s.data := by
  unfold strContainsSub
  exact decide_eq_true_iff

theorem data_append (a b : String) : (a ++ b).data = a.data ++ b.data :=
  String.data_append a b

theorem strDropRight_of_append (n sfx : String) :
    strDropRight (n ++ sfx) sfx.length = n := by
  apply str_ext
  show ((n ++ sfx).data.take ((n ++ sfx).data.length - sfx.length)) = n.data
  rw [data_append, List.length_append]
  have hl : sfx.length = sfx.data.length := rfl
  rw [hl, Nat.add_sub_cancel, List.take_left]

theorem eq_append_of_strEndsWith {s t : String} (h : strEndsWith s t = true) :
    s = strDropRight s t.length ++ t := by
  obtain ⟨p, hp⟩ := strEndsWith_iff.mp h
  have hs : s = (⟨p⟩ : String) ++ t := str_ext (by rw [data_append]; exact hp.symm)
  rw [hs, strDropRight_of_append]

theorem strEndsWith_append_left (a s t : String) (h : strEndsWith s t = true) :
    strEndsWith (a ++ s) t = true := by
  rw [strEndsWith_iff] at h ⊢
  rw [data_append]
  exact h.trans (List.suffix_append a.data s.data)

theorem strEndsWith_append_self (a t : String) : strEndsWith (a ++ t) t = true := by
  rw [strEndsWith_iff, data_append]
  exact List.suffix_append a.data t.data

theorem takeWhile_append_all {l₁ l₂ : List Char}
    (h : ∀ c ∈ l₁, c ≠ '/') :
    (l₁ ++ '/' :: l₂).takeWhile (fun c => c ≠ '/') = l₁ := by
  induction l₁ with
  | nil => simp
  | cons a as ih =>
    have ha : a ≠ '/' := h a (List.mem_cons_self a as)
    rw [List.cons_append, List.takeWhile_cons_of_pos (by simpa using ha)]
    exact congrArg (List.cons a) (ih (fun c hc => h c (List.mem_cons_of_mem a hc)))

theorem basename_append (d f : String) (hf : '/' ∉ f.data) :
    basename (d ++ "/" ++ f) = f := by
  apply str_ext
  show ((d ++ "/" ++ f).data.reverse.takeWhile (fun c => c ≠ '/')).reverse = f.data
  have hd : (d ++ "/" ++ f).data = (d.data ++ ['/']) ++ f.data := by
    rw [data_append, data_append]
  rw [hd, List.reverse_append, List.reverse_append]
  have : (['/'] : List Char).reverse ++ d.data.reverse = '/' :: d.data.reverse := rfl
  rw [this]
  rw [takeWhile_append_all (fun c hc => fun he => hf (by simpa [he] using (List.mem_reverse).mp hc))]
  exact List.reverse_reverse f.data

/-! ## Sorting lemmas -/

theorem insortStr_perm (x : String) (l : List String) :
    List.Perm (insortStr x l) (x :: l) := by
  induction l with
  | nil => exact List.Perm.refl _
  | cons y ys ih =>
    unfold insortStr
    by_cases h : (strLt x y || x == y) = true
    · rw [if_pos h]
    · rw [if_neg h]
      exact (ih.cons y).trans (List.Perm.swap x y ys)

theorem strSort_perm (l : List String) : List.Perm (strSort l) l := by
  induction l with
  | nil => exact List.Perm.refl _
  | cons a as ih =>
    show List.Perm (insortStr a (strSort as)) (a :: as)
    exact (insortStr_perm a (strSort as)).trans (ih.cons a)

theorem mem_strSort {x : String} {l : List String} : x ∈ strSort l ↔ x ∈ l :=
  (strSort_perm l).mem_iff

theorem strSort_nodup {l : List String} (h : l.Nodup) : (strSort l).Nodup :=
  (strSort_perm l).symm.nodup h

/-! ## Dictionary lemmas -/

theorem mem_dictInsert {l : List (String × String)} {kv p : String × String}
    (h : p ∈ dictInsert l kv) : p ∈ l ∨ p = kv := by
  unfold dictInsert at h
  by_cases hc : l.any (fun q => q.1 = kv.1)
  · rw [if_pos hc] at h
    obtain ⟨q, hq, he⟩ := List.mem_map.mp h
    by_cases hqk : q.1 = kv.1
    · right
      rw [if_pos hqk] at he
      rw [← he]
      exact Prod.ext_iff.mpr ⟨hqk, rfl⟩
    · left
      rw [if_neg hqk] at he
      rw [← he]; exact hq
  · rw [if_neg hc] at h
    rcases List.mem_append.mp h with h' | h'
    · exact Or.inl h'
    · exact Or.inr (List.mem_singleton.mp h')

theorem mem_foldl_dictInsert {p : String × String} :
    ∀ (l acc : List (String × String)), p ∈ List.foldl dictInsert acc l → p ∈ acc ∨ p ∈ l := by
  intro l
  induction l with
  | nil => intro acc h; exact Or.inl h
  | cons kv rest ih =>
    intro acc h
    rcases ih (dictInsert acc kv) h with h' | h'
    · rcases mem_dictInsert h' with h3 | h3
      · exact Or.inl h3
      · exact Or.inr (h3 ▸ List.mem_cons_self kv rest)
    · exact Or.inr (List.mem_cons_of_mem kv h')

theorem mem_pyDict_sub {l : List (String × String)} {p : String × String}
    (h : p ∈ pyDict l) : p ∈ l := by
  rcases mem_foldl_dictInsert l [] h with h' | h'
  · cases h'
  · exact h'

theorem dkeys_dictInsert (l : List (String × String)) (kv : String × String) :
    dkeys (dictInsert l kv) =
      if kv.1 ∈ dkeys l then dkeys l else dkeys l ++ [kv.1] := by
  unfold dictInsert dkeys
  have hany : l.any (fun q => decide (q.1 = kv.1)) = true ↔ kv.1 ∈ l.map Prod.fst := by
    rw [List.any_eq_true]
    constructor
    · rintro ⟨q, hq, he⟩
      have : q.1 = kv.1 := by simpa using he
      exact this ▸ List.mem_map_of_mem Prod.fst hq
    · intro hm
      obtain ⟨q, hq, he⟩ := List.mem_map.mp hm
      exact ⟨q, hq, by simpa using he⟩
  by_cases h : kv.1 ∈ l.map Prod.fst
  · rw [if_pos (hany.mpr h), if_pos h, List.map_map]
    apply List.map_congr_left
    intro q _
    by_cases hq : q.1 = kv.1
    · simp [hq]
    · simp [hq]
  · rw [if_neg (fun hc => h (hany.mp hc)), if_neg h, List.map_append]
    simp

theorem mem_dkeys_foldl {k : String} :
    ∀ (l acc : List (String × String)),
      (k ∈ dkeys (List.foldl dictInsert acc l) ↔ k ∈ dkeys acc ∨ k ∈ l.map Prod.fst) := by
  intro l
  induction l with
  | nil => intro acc; simp
  | cons kv rest ih =>
    intro acc
    show k ∈ dkeys (List.foldl dictInsert (dictInsert acc kv) rest) ↔ _
    rw [ih (dictInsert acc kv)]
    have hstep : k ∈ dkeys (dictInsert acc kv) ↔ k ∈ dkeys acc ∨ k = kv.1 := by
      rw [dkeys_dictInsert]
      by_cases h : kv.1 ∈ dkeys acc
      · rw [if_pos h]
        constructor
        · exact Or.inl
        · rintro (h' | h')
          · exact h'
          · rw [h']; exact h
      · rw [if_neg h, List.mem_append, List.mem_singleton]
    rw [hstep, List.map_cons, List.mem_cons]
    tauto

theorem mem_dkeys_pyDict {k : String} {l : List (String × String)} :
    k ∈ dkeys (pyDict l) ↔ k ∈ l.map Prod.fst := by
  rw [pyDict, mem_dkeys_foldl l []]
  simp [dkeys]

theorem foldl_dictInsert_eq_append :
    ∀ (l acc : List (String × String)), ((acc ++ l).map Prod.fst).Nodup →
      List.foldl dictInsert acc l = acc ++ l := by
  intro l
  induction l with
  | nil => intro acc _; simp
  | cons kv rest ih =>
    intro acc hn
    show List.foldl dictInsert (dictInsert acc kv) rest = acc ++ kv :: rest
    have h1 : (List.map Prod.fst acc ++ kv.1 :: List.map Prod.fst rest).Nodup := by
      simpa using hn
    have hnotin : kv.1 ∉ dkeys acc := by
      intro hc
      exact (List.nodup_append.mp h1).2.2 hc (List.mem_cons_self _ _)
    have hins : dictInsert acc kv = acc ++ [kv] := by
      unfold dictInsert
      rw [if_neg]
      intro hc
      obtain ⟨q, hq, he⟩ := List.any_eq_true.mp hc
      have hq1 : q.1 = kv.1 := by simpa using he
      exact hnotin (hq1 ▸ List.mem_map_of_mem Prod.fst hq)
    rw [hins]
    have := ih (acc ++ [kv]) (by simpa using hn)
    rw [this]
    simp

theorem pyDict_eq_self {l : List (String × String)}
    (h : (l.map Prod.fst).Nodup) : pyDict l = l := by
  have := foldl_dictInsert_eq_append l [] (by simpa using h)
  simpa using this

theorem lookup_isSome_of_mem_dkeys {k : String} :
    ∀ {l : List (String × String)}, k ∈ dkeys l → ∃ v, dget l k = some v := by
  intro l
  induction l with
  | nil => intro h; cases h
  | cons kv rest ih =>
    intro h
    by_cases he : k = kv.1
    · exact ⟨kv.2, by simp [dget, List.lookup, he]⟩
    · have h' : k ∈ dkeys rest := by
        rcases List.mem_cons.mp h with h'' | h''
        · exact absurd h'' he
        · exact h''
      obtain ⟨v, hv⟩ := ih h'
      refine ⟨v, ?_⟩
      simp only [dget, List.lookup]
      rw [show (k == kv.1) = false by simpa using he]
      exact hv

theorem mem_of_dget_eq_some {k v : String} :
    ∀ {l : List (String × String)}, dget l k = some v → (k, v) ∈ l := by
  intro l
  induction l with
  | nil => intro h; cases h
  | cons kv rest ih =>
    intro h
    simp only [dget, List.lookup] at h
    by_cases he : k = kv.1
    · rw [show (k == kv.1) = true by simpa using he] at h
      have hv : kv.2 = v := by simpa using h
      have : (k, v) = kv := by rw [he, ← hv]
      rw [this]; exact List.mem_cons_self kv rest
    · rw [show (k == kv.1) = false by simpa using he] at h
      exact List.mem_cons_of_mem kv (ih h)

/-! ## Membership characterizations for the matching pipeline -/

theorem mem_globFiles {files : List String} {dir sfx p : String} :
    p ∈ globFiles files dir sfx ↔
      ∃ f ∈ files, globMatch f sfx = true ∧ p = dir ++ "/" ++ f := by
  unfold globFiles
  rw [mem_strSort, List.mem_map]
  constructor
  · rintro ⟨f, hf, rfl⟩
    exact ⟨f, (List.mem_filter.mp hf).1, (List.mem_filter.mp hf).2, rfl⟩
  · rintro ⟨f, hf, hm, rfl⟩
    exact ⟨f, List.mem_filter.mpr ⟨hf, hm⟩, rfl⟩

theorem mem_matchingFiles {files : List String} {dir : String} {hdm : Bool}
    {t p : String} :
    p ∈ matchingFiles files dir hdm t ↔
      p ∈ globFiles files dir (pngSuffix t) ∧
        ((hdm && t = "mask") = true → strEndsWith p "_depth_mask.png" = false) := by
  unfold matchingFiles
  by_cases hc : (hdm && t = "mask") = true
  · rw [if_pos hc]
    rw [List.mem_filter]
    constructor
    · rintro ⟨h1, h2⟩
      exact ⟨h1, fun _ => by simpa using h2⟩
    · rintro ⟨h1, h2⟩
      exact ⟨h1, by simpa using h2 hc⟩
  · rw [if_neg hc]
    exact ⟨fun h => ⟨h, fun hc' => absurd hc' hc⟩, fun h => h.1⟩

theorem mem_dkeys_resultTypeFiles {files : List String} {dir : String}
    {hdm : Bool} {t n : String} :
    n ∈ dkeys (resultTypeFiles files dir hdm t) ↔
      ∃ p ∈ matchingFiles files dir hdm t,
        strDropRight (basename p) (pngSuffix t).length = n := by
  unfold resultTypeFiles
  rw [mem_dkeys_pyDict, List.map_map]
  rw [show (Prod.fst ∘ fun f => (strDropRight (basename f) (pngSuffix t).length, f)) =
    (fun f => strDropRight (basename f) (pngSuffix t).length) from rfl]
  exact List.mem_map.trans Iff.rfl

theorem mem_dkeys_rtf_noslash {files : List String} {dir : String} {hdm : Bool}
    {t n : String} (hslash : ∀ f ∈ files, '/' ∉ f.data) :
    n ∈ dkeys (resultTypeFiles files dir hdm t) ↔
      (n ++ pngSuffix t) ∈ files ∧
        strStartsWith (n ++ pngSuffix t) "." = false ∧
        ((hdm && t = "mask") = true →
          strEndsWith (dir ++ "/" ++ (n ++ pngSuffix t)) "_depth_mask.png" = false) := by
  rw [mem_dkeys_resultTypeFiles]
  constructor
  · rintro ⟨p, hp, hkey⟩
    obtain ⟨hg, hmask⟩ := mem_matchingFiles.mp hp
    obtain ⟨f, hf, hgm, rfl⟩ := mem_globFiles.mp hg
    unfold globMatch at hgm
    rw [Bool.and_eq_true] at hgm
    obtain ⟨hdot, hends⟩ := hgm
    rw [basename_append _ _ (hslash f hf)] at hkey
    have hlen : (pngSuffix t).length = (pngSuffix t).length := rfl
    have hfeq : f = n ++ pngSuffix t := by
      have := eq_append_of_strEndsWith hends
      rw [hkey] at this
      exact this
    refine ⟨hfeq ▸ hf, ?_, ?_⟩
    · rw [← hfeq]
      simpa using hdot
    · intro hc
      rw [← hfeq]
      exact hmask hc
  · rintro ⟨hfm, hdot, hmask⟩
    refine ⟨dir ++ "/" ++ (n ++ pngSuffix t), ?_, ?_⟩
    · apply mem_matchingFiles.mpr
      refine ⟨mem_globFiles.mpr ⟨n ++ pngSuffix t, hfm, ?_, rfl⟩, hmask⟩
      unfold globMatch
      rw [Bool.and_eq_true]
      exact ⟨by rw [hdot]; rfl, strEndsWith_append_self n (pngSuffix t)⟩
    · rw [basename_append _ _ (hslash _ hfm)]
      exact strDropRight_of_append n (pngSuffix t)

theorem mem_exampleNames {files : List String} {dir : String} {hdm : Bool}
    {n : String} :
    n ∈ exampleNames files dir hdm ↔
      ∃ t ∈ resultTypes, n ∈ dkeys (resultTypeFiles files dir hdm t) := by
  unfold exampleNames
  rw [mem_strSort, List.mem_dedup, List.mem_flatMap]

theorem exampleNames_nodup (files : List String) (dir : String) (hdm : Bool) :
    (exampleNames files dir hdm).Nodup :=
  strSort_nodup (List.nodup_dedup _)

theorem missingTypes_eq_nil_iff {files : List String} {dir : String} {hdm : Bool}
    {n : String} :
    missingTypes files dir hdm n = [] ↔
      ∀ t ∈ resultTypes, n ∈ dkeys (resultTypeFiles files dir hdm t) := by
  unfold missingTypes
  rw [List.filter_eq_nil_iff]
  constructor
  · intro h t ht
    have := h t ht
    simpa [dmem] using this
  · intro h t ht
    simp [dmem, h t ht]

theorem missingExamples_eq_nil_iff {files : List String} {dir : String}
    {hdm : Bool} :
    missingExamples files dir hdm = [] ↔
      ∀ n ∈ exampleNames files dir hdm, missingTypes files dir hdm n = [] := by
  unfold missingExamples
  rw [List.filterMap_eq_nil_iff]
  constructor
  · intro h n hn
    have := h n hn
    by_cases hm : missingTypes files dir hdm n = []
    · exact hm
    · rw [if_neg hm] at this
      cases this
  · intro h n hn
    rw [if_pos (h n hn)]

theorem mem_missingExamples {files : List String} {dir : String} {hdm : Bool}
    {n : String} (hn : n ∈ exampleNames files dir hdm)
    (hne : missingTypes files dir hdm n ≠ []) :
    (n, missingTypes files dir hdm n) ∈ missingExamples files dir hdm := by
  unfold missingExamples
  apply List.mem_filterMap.mpr
  exact ⟨n, hn, by rw [if_neg hne]⟩

/-! ## Join and infix lemmas for the error messages -/

theorem mem_strJoin_infix (sep : String) {x : String} {l : List String}
    (h : x ∈ l) : x.data <:+: (strJoin sep l).data := by
  induction l with
  | nil => cases h
  | cons a as ih =>
    cases as with
    | nil =>
      have hx : x = a := List.mem_singleton.mp h
      rw [hx]
      exact List.infix_refl _
    | cons b bs =>
      rcases List.mem_cons.mp h with hx | h'
      · rw [hx]
        show a.data <:+: (a ++ sep ++ strJoin sep (b :: bs)).data
        rw [data_append, data_append]
        exact (((List.prefix_append a.data sep.data).trans
          (List.prefix_append (a.data ++ sep.data) _))).isInfix
      · show x.data <:+: (a ++ sep ++ strJoin sep (b :: bs)).data
        rw [data_append]
        exact (ih h').trans (List.suffix_append _ _).isInfix

theorem strContainsSub_append_right {a b x : String}
    (h : strContainsSub b x = true) : strContainsSub (a ++ b) x = true := by
  rw [strContainsSub_iff] at h ⊢
  rw [data_append]
  exact h.trans (List.suffix_append _ _).isInfix

/-! ## Lookup of a graph -/

theorem lookup_map_graph {β : Type} {g : String → β} {l : List String}
    {m : String} (h : m ∈ l) :
    List.lookup m (l.map (fun x => (x, g x))) = some (g m) := by
  induction l with
  | nil => cases h
  | cons a as ih =>
    by_cases he : m = a
    · simp [List.lookup, he]
    · have h' : m ∈ as := by
        rcases List.mem_cons.mp h with h'' | h''
        · exact absurd h'' he
        · exact h''
      simp only [List.map_cons, List.lookup]
      rw [show (m == a) = false by simpa using he]
      exact ih h'

/-! ## Equational helpers for the top-level functions -/

theorem bind_ok {α β : Type} (a : α) (f : α → Except PyError β) :
    (Except.ok a >>= f) = f a := rfl

theorem bind_error {α β : Type} (e : PyError) (f : α → Except PyError β) :
    ((Except.error e : Except PyError α) >>= f) = Except.error e := rfl

theorem check_eq (gt user : List (String × String)) :
    check_user_submission_file_paths gt user =
      if ((dkeys gt).filter (fun n => ¬ dmem n user)).length > 0 then
        .error (.valueError ("There are missing evaluation examples: " ++
          pyStrList ((dkeys gt).filter (fun n => ¬ dmem n user))))
      else if ((dkeys user).filter (fun n => ¬ dmem n gt)).length > 0 then
        .error (.valueError ("Unexpected submitted evaluation examples " ++
          pyStrList ((dkeys user).filter (fun n => ¬ dmem n gt))))
      else .ok () := rfl

theorem check_ok_of_keys {gt user : List (String × String)}
    (h : ∀ k, dmem k gt ↔ dmem k user) :
    check_user_submission_file_paths gt user = .ok () := by
  have h1 : (dkeys gt).filter (fun n => ¬ dmem n user) = [] := by
    apply List.filter_eq_nil_iff.mpr
    intro n hn
    simp [(h n).mp hn]
  have h2 : (dkeys user).filter (fun n => ¬ dmem n gt) = [] := by
    apply List.filter_eq_nil_iff.mpr
    intro n hn
    simp [(h n).mpr hn]
  rw [check_eq, h1, h2]
  rfl

/-! ## The claims -/

/-- C4: for any two file-name mappings whose key sets are equal,
`check_user_submission_file_paths` returns normally without raising,
regardless of the file-path values stored in the mappings. -/
theorem check_succeeds_on_equal_key_sets
    (gt user : List (String × String))
    (h : ∀ k, dmem k gt ↔ dmem k user) :
    check_user_submission_file_paths gt user = .ok () :=
  check_ok_of_keys h

/-- Witness for C4: equal singleton key sets with entirely different stored
paths pass the check. -/
theorem check_succeeds_on_equal_key_sets_witness :
    check_user_submission_file_paths [("a", "gt_dir/a")] [("a", "other/a")] = .ok () :=
  check_succeeds_on_equal_key_sets _ _ (fun _ => Iff.rfl)

/-- C2 counterexample: with ground-truth names `{a, b}` and submission names
`{a, c}` the symmetric difference is `{b, c}`, but the raised message lists
only the missing name `b` and never mentions the extra name `c`, so the message does not
list the exact symmetric difference. -/
theorem check_message_omits_extras_counterexample :
    check_user_submission_file_paths [("a", "gt/a"), ("b", "gt/b")]
        [("a", "pred/a"), ("c", "pred/c")] =
      .error (.valueError
        ("There are missing evaluation examples: [" ++ sq ++ "b" ++ sq ++ "]")) ∧
    strContainsSub
      ("There are missing evaluation examples: [" ++ sq ++ "b" ++ sq ++ "]")
      "c" = false := by
  constructor
  · rfl
  · decide

/-- C2 (amended): for any two mappings whose key sets differ,
`check_user_submission_file_paths` raises a `ValueError`; if some
ground-truth name is missing from the submission the message lists exactly
the missing names, otherwise it lists exactly the extra submission names —
and `evaluate_file_folders` raises that same error on any missing or extra
example name between the two folders. -/
theorem check_raises_on_different_key_sets
    (gt user : List (String × String)) (mns : List String)
    (evalOne : String → String → List (String × ℚ))
    (pf gf : List String) (pd gd : String)
    (hu : get_result_directory_file_names pf pd false = .ok user)
    (hg : get_result_directory_file_names gf gd true = .ok gt)
    (hne : ∃ k, (dmem k gt ∧ ¬ dmem k user) ∨ (dmem k user ∧ ¬ dmem k gt)) :
    ∃ msg,
      check_user_submission_file_paths gt user = .error (.valueError msg) ∧
      msg = (if ((dkeys gt).filter (fun n => ¬ dmem n user)).length > 0 then
          "There are missing evaluation examples: " ++
            pyStrList ((dkeys gt).filter (fun n => ¬ dmem n user))
        else
          "Unexpected submitted evaluation examples " ++
            pyStrList ((dkeys user).filter (fun n => ¬ dmem n gt))) ∧
      evaluate_file_folders mns evalOne pf gf pd gd = .error (.valueError msg) := by
  have heval : ∀ e, check_user_submission_file_paths gt user = .error e →
      evaluate_file_folders mns evalOne pf gf pd gd = .error e := by
    intro e hch
    unfold evaluate_file_folders
    rw [hu, bind_ok, hg, bind_ok, hch, bind_error]
  by_cases hm : ((dkeys gt).filter (fun n => ¬ dmem n user)).length > 0
  · refine ⟨"There are missing evaluation examples: " ++
        pyStrList ((dkeys gt).filter (fun n => ¬ dmem n user)), ?_, ?_, ?_⟩
    · rw [check_eq, if_pos hm]
    · rw [if_pos hm]
    · exact heval _ (by rw [check_eq, if_pos hm])
  · have hmiss : (dkeys gt).filter (fun n => ¬ dmem n user) = [] := by
      cases hf : (dkeys gt).filter (fun n => ¬ dmem n user) with
      | nil => rfl
      | cons a as => rw [hf] at hm; exact absurd (by simp) hm
    have hextra : ((dkeys user).filter (fun n => ¬ dmem n gt)).length > 0 := by
      obtain ⟨k, hk⟩ := hne
      rcases hk with ⟨h1, h2⟩ | ⟨h1, h2⟩
      · exfalso
        have : k ∈ (dkeys gt).filter (fun n => ¬ dmem n user) :=
          List.mem_filter.mpr ⟨h1, by simpa using h2⟩
        rw [hmiss] at this
        cases this
      · have : k ∈ (dkeys user).filter (fun n => ¬ dmem n gt) :=
          List.mem_filter.mpr ⟨h1, by simpa using h2⟩
        exact List.length_pos.mpr (List.ne_nil_of_mem this)
    refine ⟨"Unexpected submitted evaluation examples " ++
        pyStrList ((dkeys user).filter (fun n => ¬ dmem n gt)), ?_, ?_, ?_⟩
    · rw [check_eq, if_neg hm, if_pos hextra]
    · rw [if_neg hm]
    · exact heval _ (by rw [check_eq, if_neg hm, if_pos hextra])

/-- Witness for C2 (amended): ground truth `{a, b}` against submission
`{a, c}` raises the missing-examples error, and so does the folder-level
evaluation on directories producing those mappings. -/
theorem check_raises_on_different_key_sets_witness :
    ∃ msg,
      check_user_submission_file_paths [("a", "g/a"), ("b", "g/b")]
          [("a", "p/a"), ("c", "p/c")] = .error (.valueError msg) ∧
      msg = (if ((dkeys [("a", "g/a"), ("b", "g/b")]).filter
            (fun n => ¬ dmem n [("a", "p/a"), ("c", "p/c")])).length > 0 then
          "There are missing evaluation examples: " ++
            pyStrList ((dkeys [("a", "g/a"), ("b", "g/b")]).filter
              (fun n => ¬ dmem n [("a", "p/a"), ("c", "p/c")]))
        else
          "Unexpected submitted evaluation examples " ++
            pyStrList ((dkeys [("a", "p/a"), ("c", "p/c")]).filter
              (fun n => ¬ dmem n [("a", "g/a"), ("b", "g/b")]))) ∧
      evaluate_file_folders [] (fun _ _ => [])
        ["a_image.png", "a_mask.png", "a_depth.png",
         "c_image.png", "c_mask.png", "c_depth.png"]
        ["a_image.png", "a_mask.png", "a_depth.png",
         "b_image.png", "b_mask.png", "b_depth.png"]
        "p" "g" = .error (.valueError msg) :=
  check_raises_on_different_key_sets
    [("a", "g/a"), ("b", "g/b")] [("a", "p/a"), ("c", "p/c")]
    [] (fun _ _ => []) _ _ "p" "g" (by decide) (by decide)
    ⟨"b", Or.inl (by decide)⟩

/-- C9: `get_co3d_task_from_subset_name` returns `MANY_VIEW` on every subset
name starting with "manyview", `FEW_VIEW` on every subset name starting with
"fewview", and raises a `ValueError` exactly when the name starts with
neither. -/
theorem task_from_subset_name_spec (s : String) :
    (strStartsWith s "manyview" = true →
      get_co3d_task_from_subset_name s = .ok .MANY_VIEW) ∧
    (strStartsWith s "fewview" = true →
      get_co3d_task_from_subset_name s = .ok .FEW_VIEW) ∧
    (get_co3d_task_from_subset_name s =
        .error (.valueError ("Invalid subset name " ++ s ++ "!")) ↔
      strStartsWith s "manyview" = false ∧ strStartsWith s "fewview" = false) := by
  unfold get_co3d_task_from_subset_name
  by_cases hm : strStartsWith s "manyview" = true
  · rw [if_pos hm]
    refine ⟨fun _ => rfl, ?_, ?_⟩
    · intro hf
      exfalso
      have h1 := strStartsWith_iff.mp hm
      have h2 := strStartsWith_iff.mp hf
      rcases List.prefix_or_prefix_of_prefix h2 h1 with h3 | h3
      · exact absurd h3 (by decide)
      · exact absurd h3 (by decide)
    · constructor
      · intro h; exact Except.noConfusion h
      · rintro ⟨h1, _⟩
        rw [hm] at h1
        exact Bool.noConfusion h1
  · rw [if_neg hm]
    by_cases hf : strStartsWith s "fewview" = true
    · rw [if_pos hf]
      refine ⟨fun hm' => absurd hm' hm, fun _ => rfl, ?_⟩
      constructor
      · intro h; exact Except.noConfusion h
      · rintro ⟨_, h2⟩
        rw [hf] at h2
        exact Bool.noConfusion h2
    · rw [if_neg hf]
      refine ⟨fun hm' => absurd hm' hm, fun hf' => absurd hf' hf, ?_⟩
      exact ⟨fun _ => ⟨by simpa using hm, by simpa using hf⟩, fun _ => rfl⟩

/-- Witness for C9: a "manyview"-prefixed name maps to `MANY_VIEW`, a
"fewview"-prefixed name to `FEW_VIEW`, and a name with neither raises the
invalid-subset error. -/
theorem task_from_subset_name_spec_witness :
    get_co3d_task_from_subset_name "manyview_dev_0" = .ok .MANY_VIEW ∧
    get_co3d_task_from_subset_name "fewview_test_3" = .ok .FEW_VIEW ∧
    get_co3d_task_from_subset_name "bogus" =
      .error (.valueError ("Invalid subset name " ++ "bogus" ++ "!")) :=
  ⟨(task_from_subset_name_spec "manyview_dev_0").1 (by decide),
   (task_from_subset_name_spec "fewview_test_3").2.1 (by decide),
   (task_from_subset_name_spec "bogus").2.2.mpr (by decide)⟩

/-- C8: a result directory with no entry matching `*_image.png`, `*_mask.png`
or `*_depth.png` passes validation and yields the empty dictionary. -/
theorem result_directory_empty_ok (files : List String) (dir : String)
    (hdm : Bool)
    (h : ∀ f ∈ files, ∀ t ∈ resultTypes, globMatch f (pngSuffix t) = false) :
    get_result_directory_file_names files dir hdm = .ok [] := by
  have hg : ∀ t ∈ resultTypes, globFiles files dir (pngSuffix t) = [] := by
    intro t ht
    unfold globFiles
    have hfil : files.filter (fun f => globMatch f (pngSuffix t)) = [] :=
      List.filter_eq_nil_iff.mpr (fun f hf => by simp [h f hf t ht])
    rw [hfil]
    rfl
  have hmf : ∀ t ∈ resultTypes, matchingFiles files dir hdm t = [] := by
    intro t ht
    unfold matchingFiles
    rw [hg t ht]
    by_cases hc : (hdm && t = "mask") = true
    · rw [if_pos hc]
      rfl
    · rw [if_neg hc]
  have hen : exampleNames files dir hdm = [] := by
    unfold exampleNames
    have hfm : resultTypes.flatMap
        (fun t => dkeys (resultTypeFiles files dir hdm t)) = [] := by
      apply List.eq_nil_iff_forall_not_mem.mpr
      intro n hn
      obtain ⟨t, ht, hmem⟩ := List.mem_flatMap.mp hn
      unfold resultTypeFiles at hmem
      rw [hmf t ht] at hmem
      exact List.not_mem_nil n hmem
    rw [hfm]
    rfl
  have hmiss : missingExamples files dir hdm = [] := by
    unfold missingExamples
    rw [hen]
    rfl
  unfold get_result_directory_file_names
  rw [hmiss, if_neg (by simp), hen]
  rfl

/-- Witness for C8: a directory holding only an unrelated file yields the
empty dictionary. -/
theorem result_directory_empty_ok_witness :
    get_result_directory_file_names ["readme.txt"] "some_dir" false = .ok [] :=
  result_directory_empty_ok ["readme.txt"] "some_dir" false (by decide)

/-- C3: when some example name has at least one but not all three of its
image/mask/depth files, `get_result_directory_file_names` raises a
`ValueError`, and the message lists every such incomplete example name
together with the result types it is missing. -/
theorem result_directory_incomplete_raises (files : List String) (dir : String)
    (hdm : Bool)
    (h : ∃ n, (∃ t ∈ resultTypes, n ∈ dkeys (resultTypeFiles files dir hdm t)) ∧
      (∃ t ∈ resultTypes, n ∉ dkeys (resultTypeFiles files dir hdm t))) :
    ∃ msg,
      get_result_directory_file_names files dir hdm =
        .error (.valueError msg) ∧
      strStartsWith msg "Some evaluation examples are incomplete:" = true ∧
      ∀ n, (∃ t ∈ resultTypes, n ∈ dkeys (resultTypeFiles files dir hdm t)) →
        (∃ t ∈ resultTypes, n ∉ dkeys (resultTypeFiles files dir hdm t)) →
        strContainsSub msg
          ("   " ++ n ++ " missing " ++
            pyStrList (missingTypes files dir hdm n)) = true := by
  have hincomp : ∀ n,
      (∃ t ∈ resultTypes, n ∈ dkeys (resultTypeFiles files dir hdm t)) →
      (∃ t ∈ resultTypes, n ∉ dkeys (resultTypeFiles files dir hdm t)) →
      (n, missingTypes files dir hdm n) ∈ missingExamples files dir hdm := by
    intro n hsome hnot
    have hn : n ∈ exampleNames files dir hdm := mem_exampleNames.mpr hsome
    have hne : missingTypes files dir hdm n ≠ [] := by
      intro hnil
      obtain ⟨t, ht, hmem⟩ := hnot
      exact hmem (missingTypes_eq_nil_iff.mp hnil t ht)
    exact mem_missingExamples hn hne
  have hmiss : missingExamples files dir hdm ≠ [] := by
    obtain ⟨n, hsome, hnot⟩ := h
    exact List.ne_nil_of_mem (hincomp n hsome hnot)
  refine ⟨"Some evaluation examples are incomplete:\n" ++
    strJoin "\n" ((missingExamples files dir hdm).map
      (fun kv => "   " ++ kv.1 ++ " missing " ++ pyStrList kv.2)), ?_, ?_, ?_⟩
  · unfold get_result_directory_file_names
    rw [if_pos (List.length_pos.mpr hmiss)]
  · rw [strStartsWith_iff, data_append]
    exact List.prefix_append _ _
  · intro n hsome hnot
    have hline : ("   " ++ n ++ " missing " ++
        pyStrList (missingTypes files dir hdm n)) ∈
        (missingExamples files dir hdm).map
          (fun kv => "   " ++ kv.1 ++ " missing " ++ pyStrList kv.2) :=
      List.mem_map_of_mem _ (hincomp n hsome hnot)
    have hinf := mem_strJoin_infix "\n" hline
    rw [strContainsSub_iff, data_append]
    exact hinf.trans (List.suffix_append _ _).isInfix

/-- Witness for C3: a directory holding only `a_image.png` and `a_mask.png`
(no depth file) raises the incompleteness error, whose message carries the
line for example `a` missing `['depth']`. -/
theorem result_directory_incomplete_raises_witness :
    ∃ msg,
      get_result_directory_file_names ["a_image.png", "a_mask.png"] "d" false =
        .error (.valueError msg) ∧
      strStartsWith msg "Some evaluation examples are incomplete:" = true ∧
      ∀ n, (∃ t ∈ resultTypes,
          n ∈ dkeys (resultTypeFiles ["a_image.png", "a_mask.png"] "d" false t)) →
        (∃ t ∈ resultTypes,
          n ∉ dkeys (resultTypeFiles ["a_image.png", "a_mask.png"] "d" false t)) →
        strContainsSub msg
          ("   " ++ n ++ " missing " ++
            pyStrList (missingTypes ["a_image.png", "a_mask.png"] "d" false n)) =
          true :=
  result_directory_incomplete_raises ["a_image.png", "a_mask.png"] "d" false
    ⟨"a", ⟨"image", by decide, by decide⟩, ⟨"depth", by decide, by decide⟩⟩

/-- C5: with `has_depth_masks = True` (as used for the ground-truth folder),
every file ending in `_depth_mask.png` is excluded from the `mask`
result-type matching, and hence such a file contributes no example name of
the form `<name>_depth` to the ground-truth example set: if the directory
has no genuine files for the name `<name>_depth`, that name is absent even
when `<name>_depth_mask.png` is present. -/
theorem depth_mask_files_excluded (files : List String) (dir m : String)
    (hslash : ∀ f ∈ files, '/' ∉ f.data)
    (himg : (m ++ "_depth_image.png") ∉ files)
    (hdep : (m ++ "_depth_depth.png") ∉ files) :
    (∀ p ∈ matchingFiles files dir true "mask",
      strEndsWith p "_depth_mask.png" = false) ∧
    (m ++ "_depth") ∉ exampleNames files dir true := by
  constructor
  · intro p hp
    exact (mem_matchingFiles.mp hp).2 (by decide)
  · intro hmem
    obtain ⟨t, ht, hk⟩ := mem_exampleNames.mp hmem
    fin_cases ht
    · obtain ⟨hfm, _, _⟩ := (mem_dkeys_rtf_noslash hslash).mp hk
      have he : (m ++ "_depth") ++ pngSuffix "image" = m ++ "_depth_image.png" := by
        rw [String.append_assoc]
        exact congrArg (fun x => m ++ x) (by decide)
      exact himg (he ▸ hfm)
    · obtain ⟨hfm, _, hmask⟩ := (mem_dkeys_rtf_noslash hslash).mp hk
      have he : (m ++ "_depth") ++ pngSuffix "mask" = m ++ "_depth_mask.png" := by
        rw [String.append_assoc]
        exact congrArg (fun x => m ++ x) (by decide)
      have hends : strEndsWith
          (dir ++ "/" ++ ((m ++ "_depth") ++ pngSuffix "mask"))
          "_depth_mask.png" = true := by
        rw [he]
        exact strEndsWith_append_left _ _ _ (strEndsWith_append_self m "_depth_mask.png")
      rw [hmask (by decide)] at hends
      exact Bool.noConfusion hends
    · obtain ⟨hfm, _, _⟩ := (mem_dkeys_rtf_noslash hslash).mp hk
      have he : (m ++ "_depth") ++ pngSuffix "depth" = m ++ "_depth_depth.png" := by
        rw [String.append_assoc]
        exact congrArg (fun x => m ++ x) (by decide)
      exact hdep (he ▸ hfm)

/-- Witness for C5: a ground-truth directory holding only `x_depth_mask.png`
produces no `x_depth` example name. -/
theorem depth_mask_files_excluded_witness :
    (∀ p ∈ matchingFiles ["x_depth_mask.png"] "g" true "mask",
      strEndsWith p "_depth_mask.png" = false) ∧
    ("x" ++ "_depth") ∉ exampleNames ["x_depth_mask.png"] "g" true :=
  depth_mask_files_excluded ["x_depth_mask.png"] "g" "x"
    (by decide) (by decide) (by decide)

theorem dget_rtf_noslash {files : List String} {dir : String} {hdm : Bool}
    {t n p : String} (hslash : ∀ f ∈ files, '/' ∉ f.data)
    (hp : dget (resultTypeFiles files dir hdm t) n = some p) :
    p = dir ++ "/" ++ (n ++ pngSuffix t) := by
  have hpair : (n, p) ∈ resultTypeFiles files dir hdm t := mem_of_dget_eq_some hp
  have hpair' := mem_pyDict_sub hpair
  obtain ⟨q, hq, he⟩ := List.mem_map.mp hpair'
  have hpq : q = p := congrArg Prod.snd he
  have hkey : strDropRight (basename q) (pngSuffix t).length = n :=
    congrArg Prod.fst he
  obtain ⟨hg, _⟩ := mem_matchingFiles.mp hq
  obtain ⟨f, hf, hgm, rfl⟩ := mem_globFiles.mp hg
  unfold globMatch at hgm
  rw [Bool.and_eq_true] at hgm
  rw [basename_append _ _ (hslash f hf)] at hkey
  have hfeq : f = n ++ pngSuffix t := by
    have := eq_append_of_strEndsWith hgm.2
    rw [hkey] at this
    exact this
  rw [← hpq, hfeq]

/-- C6: for a result directory in which every example name has all three of
its image, mask and depth files, `get_result_directory_file_names` returns a
dictionary whose key list is exactly the (sorted, duplicate-free) example
names of the directory, and whose value at each example name is the image
file path of that example with the `_image.png` suffix removed — the
per-example root path `<dir>/<name>`. -/
theorem result_directory_complete_roundtrip (files : List String)
    (dir : String) (hdm : Bool)
    (hslash : ∀ f ∈ files, '/' ∉ f.data)
    (hcomplete : ∀ n ∈ exampleNames files dir hdm, ∀ t ∈ resultTypes,
      n ∈ dkeys (resultTypeFiles files dir hdm t)) :
    ∃ d, get_result_directory_file_names files dir hdm = .ok d ∧
      dkeys d = exampleNames files dir hdm ∧
      ∀ n ∈ exampleNames files dir hdm,
        dget d n = some (dir ++ "/" ++ n) := by
  have hmiss : missingExamples files dir hdm = [] :=
    missingExamples_eq_nil_iff.mpr
      (fun n hn => missingTypes_eq_nil_iff.mpr (hcomplete n hn))
  have hfst : (((exampleNames files dir hdm).map
      (fun n => (n, strDropRight
        ((dget (resultTypeFiles files dir hdm "image") n).getD "")
        ("_image.png").length))).map Prod.fst) = exampleNames files dir hdm := by
    rw [List.map_map]
    exact (List.map_congr_left (fun a _ => rfl)).trans (List.map_id _)
  have hpy : pyDict ((exampleNames files dir hdm).map
      (fun n => (n, strDropRight
        ((dget (resultTypeFiles files dir hdm "image") n).getD "")
        ("_image.png").length))) =
      (exampleNames files dir hdm).map
        (fun n => (n, strDropRight
          ((dget (resultTypeFiles files dir hdm "image") n).getD "")
          ("_image.png").length)) :=
    pyDict_eq_self (by rw [hfst]; exact exampleNames_nodup files dir hdm)
  refine ⟨(exampleNames files dir hdm).map
    (fun n => (n, strDropRight
      ((dget (resultTypeFiles files dir hdm "image") n).getD "")
      ("_image.png").length)), ?_, ?_, ?_⟩
  · unfold get_result_directory_file_names
    rw [hmiss, if_neg (by simp)]
    exact congrArg Except.ok hpy
  · exact hfst
  · intro n hn
    have hlk := @lookup_map_graph String (fun x =>
      strDropRight ((dget (resultTypeFiles files dir hdm "image") x).getD "")
        ("_image.png").length) (exampleNames files dir hdm) n hn
    show List.lookup n _ = _
    rw [hlk]
    obtain ⟨p, hp⟩ := lookup_isSome_of_mem_dkeys (hcomplete n hn "image" (by decide))
    show some (strDropRight
      ((dget (resultTypeFiles files dir hdm "image") n).getD "")
      ("_image.png").length) = some (dir ++ "/" ++ n)
    rw [hp, Option.getD_some, dget_rtf_noslash hslash hp, ← String.append_assoc,
      show ("_image.png" : String).length = (pngSuffix "image").length from by decide]
    exact congrArg some (strDropRight_of_append (dir ++ "/" ++ n) (pngSuffix "image"))

/-- Witness for C6: a directory with the three files of example `a` yields
the dictionary mapping `a` to root path `d/a`. -/
theorem result_directory_complete_roundtrip_witness :
    ∃ d, get_result_directory_file_names
        ["a_image.png", "a_mask.png", "a_depth.png"] "d" false = .ok d ∧
      dkeys d = exampleNames ["a_image.png", "a_mask.png", "a_depth.png"] "d" false ∧
      ∀ n ∈ exampleNames ["a_image.png", "a_mask.png", "a_depth.png"] "d" false,
        dget d n = some ("d" ++ "/" ++ n) :=
  result_directory_complete_roundtrip
    ["a_image.png", "a_mask.png", "a_depth.png"] "d" false
    (by decide) (by decide)

/-- C7: when both folders contain zero examples, the per-example result list
is empty and the unguarded averaging step divides by its length, so
`evaluate_file_folders` raises a `ZeroDivisionError` (whenever there is at
least one metric name to average). -/
theorem evaluate_empty_folders_division_by_zero (mns : List String)
    (evalOne : String → String → List (String × ℚ))
    (pf gf : List String) (pd gd : String)
    (hu : get_result_directory_file_names pf pd false = .ok [])
    (hg : get_result_directory_file_names gf gd true = .ok [])
    (hm : mns ≠ []) :
    evaluate_file_folders mns evalOne pf gf pd gd =
      .error .zeroDivisionError := by
  unfold evaluate_file_folders
  rw [hu, bind_ok, hg, bind_ok,
    show check_user_submission_file_paths [] [] = .ok () from rfl, bind_ok]
  exact if_pos ⟨List.length_pos.mpr hm, rfl⟩

/-- Witness for C7: empty prediction and ground-truth directories with a
single metric name raise the division-by-zero error. -/
theorem evaluate_empty_folders_division_by_zero_witness :
    evaluate_file_folders ["psnr"] (fun _ _ => []) [] [] "p" "g" =
      .error .zeroDivisionError :=
  evaluate_empty_folders_division_by_zero ["psnr"] (fun _ _ => []) [] [] "p" "g"
    (by decide) (by decide) (by decide)

/-- C1: when both folders validate, their example-name sets agree and are
non-empty, `evaluate_file_folders` succeeds and returns, for each metric
name, the arithmetic mean of that metric over the per-example results: the
sum of the per-example values divided by the number of examples. -/
theorem evaluate_returns_metric_means (mns : List String)
    (evalOne : String → String → List (String × ℚ))
    (pf gf : List String) (pd gd : String)
    (gtd ud : List (String × String))
    (hu : get_result_directory_file_names pf pd false = .ok ud)
    (hg : get_result_directory_file_names gf gd true = .ok gtd)
    (hkeys : ∀ k, dmem k gtd ↔ dmem k ud)
    (hne : gtd ≠ []) :
    ∃ res per,
      evaluate_file_folders mns evalOne pf gf pd gd = .ok (res, per) ∧
      per = (dkeys gtd).map
        (fun e => evalOne ((dget gtd e).getD "") ((dget ud e).getD "")) ∧
      per ≠ [] ∧
      ∀ m ∈ mns, List.lookup m res =
        some (((per.map (fun r => (List.lookup m r).getD 0)).sum) /
          (per.length : ℚ)) := by
  unfold evaluate_file_folders
  rw [hu, bind_ok, hg, bind_ok, check_ok_of_keys hkeys, bind_ok]
  have hperne : ((dkeys gtd).map
      (fun e => evalOne ((dget gtd e).getD "") ((dget ud e).getD ""))) ≠ [] := by
    cases gtd with
    | nil => exact absurd rfl hne
    | cons a l => simp [dkeys]
  rw [if_neg (fun hc => hperne (List.length_eq_zero.mp hc.2))]
  refine ⟨_, _, rfl, rfl, hperne, ?_⟩
  intro m hm
  exact lookup_map_graph hm

/-- Witness for C1: a two-example fixture with a constant metric value 3 per
example; the averaged metric equals (3 + 3) / 2. -/
theorem evaluate_returns_metric_means_witness :
    ∃ res per,
      evaluate_file_folders ["psnr"] (fun _ _ => [("psnr", (3 : ℚ))])
        ["a_image.png", "a_mask.png", "a_depth.png",
         "b_image.png", "b_mask.png", "b_depth.png"]
        ["a_image.png", "a_mask.png", "a_depth.png",
         "b_image.png", "b_mask.png", "b_depth.png"]
        "p" "g" = .ok (res, per) ∧
      per = (dkeys [("a", "g/a"), ("b", "g/b")]).map
        (fun e => (fun _ _ => [("psnr", (3 : ℚ))])
          ((dget [("a", "g/a"), ("b", "g/b")] e).getD "")
          ((dget [("a", "p/a"), ("b", "p/b")] e).getD "")) ∧
      per ≠ [] ∧
      ∀ m ∈ ["psnr"], List.lookup m res =
        some (((per.map (fun r => (List.lookup m r).getD 0)).sum) /
          (per.length : ℚ)) :=
  evaluate_returns_metric_means ["psnr"] (fun _ _ => [("psnr", (3 : ℚ))])
    _ _ "p" "g" [("a", "g/a"), ("b", "g/b")] [("a", "p/a"), ("b", "p/b")]
    (by decide) (by decide) (fun _ => Iff.rfl) (by decide)

end CO3D